import Mathlib

/-
  Shallow embedding of the LAI ACPI core under verification:
    src/src/eval.c      - value decoding (integers, package sizes, EISA ids,
                          package element fetch, byte swapping, hex digits)
    src/src/resource.c  - resource descriptor stream parsing
    src/src/pciroute.c  - PCI interrupt routing (pin check, PRT scan,
                          PRT entry resolution)

  Machine integers are modelled as Nat with explicit truncation (% 256 for
  uint8_t reads, &&& 0xFFFFFFFF for uint32_t, ...).  Raw C pointers into
  byte buffers are modelled either as total byte streams (Nat → Nat, for
  decoders the source never bounds-checks) or as List Nat with an
  out-of-bounds read mapped to Option.none (the source's behavior there is
  undefined).  Fallible routines return Option / an explicit status code,
  mirroring the C return conventions.
-/

namespace LaiCore

/-- The dynamically typed ACPI value (lai_object_t from lai/core.h, whose
union is modelled as a tagged sum).  A handle carries the bytes of the
referenced device's _CRS buffer, which is the only piece of namespace state
the routing code reads through a handle. -/
inductive lai_object where
  | uninitialized : lai_object
  | integer : Nat → lai_object          -- LAI_INTEGER, uint64_t payload
  | string : List Nat → lai_object      -- LAI_STRING, byte string
  | buffer : List Nat → lai_object      -- LAI_BUFFER
  | package : List lai_object → lai_object  -- LAI_PACKAGE with package_size = length
  | handle : List Nat → lai_object      -- LAI_HANDLE (payload: the node's _CRS bytes)

/-- Resource kinds (acpi_resource_t.type).  The parser in resource.c only
ever produces the irq kind; the other kinds exist in the enum (core.h). -/
inductive acpi_restype where
  | null : acpi_restype
  | irq : acpi_restype
  | io : acpi_restype
  | mem : acpi_restype
  deriving DecidableEq

/-- acpi_resource_t: one decoded resource entry. -/
structure acpi_resource where
  restype : acpi_restype
  base : Nat
  irq_flags : Nat
  deriving DecidableEq

/-- ACPI small-IRQ config-byte flag values, and the flag constants from
lai/core.h (header not under src/; values are the standard ACPI small IRQ
descriptor flag encoding the constants mirror). -/
def ACPI_IRQ_EDGE : Nat := 0x01
def ACPI_IRQ_LEVEL : Nat := 0x00
def ACPI_IRQ_ACTIVE_HIGH : Nat := 0x00
def ACPI_IRQ_ACTIVE_LOW : Nat := 0x08
def ACPI_IRQ_EXCLUSIVE : Nat := 0x00
def ACPI_IRQ_SHARED : Nat := 0x10

/-- char_to_hex (eval.c:193-203).  The argument is an ASCII character code
(0..127); the C return type is uint8_t, so the negative difference produced
by the first branch for codes below '0' (0x30) wraps modulo 256. -/
def char_to_hex (character : Nat) : Nat :=
  if character ≤ 57 then (character + 256 - 48) % 256   -- character - '0' as uint8_t
  else if 65 ≤ character ∧ character ≤ 70 then character - 65 + 10  -- 'A'..'F'
  else if 97 ≤ character ∧ character ≤ 102 then character - 97 + 10 -- 'a'..'f'
  else 0

/-- bswap32 (eval.c:184-187), on a uint32_t value. -/
def bswap32 (dword : Nat) : Nat :=
  ((dword >>> 24) &&& 0xFF) ||| ((dword <<< 8) &&& 0xFF0000) |||
    ((dword >>> 8) &&& 0xFF00) ||| ((dword <<< 24) &&& 0xFF000000)

/-- lai_eisaid (eval.c:210-234).  The id string is a list of character
codes.  The C accumulates into a uint32_t with |=, which is the or of all
terms truncated to 32 bits; the letter terms (id[i] - 0x40) use Nat
subtraction (for codes below 0x40 the C computes a negative shifted value,
which is undefined behavior for the signed shift). -/
def lai_eisaid (id : List Nat) : lai_object :=
  if id.length ≠ 7 then .string id
  else
    let out : Nat :=
      (((id.getD 0 0 - 0x40) <<< 26) |||
       ((id.getD 1 0 - 0x40) <<< 21) |||
       ((id.getD 2 0 - 0x40) <<< 16) |||
       (char_to_hex (id.getD 3 0) <<< 12) |||
       (char_to_hex (id.getD 4 0) <<< 8) |||
       (char_to_hex (id.getD 5 0) <<< 4) |||
       char_to_hex (id.getD 6 0)) &&& 0xFFFFFFFF
    .integer (bswap32 out &&& 0xFFFFFFFF)

/-- lai_eval_integer (eval.c:41-74).  The object is a byte stream (the C
never bounds-checks, so the model reads bytes at arbitrary offsets); each
memory read truncates to a byte.  Result: some (value, size) for the seven
recognized tag bytes, none for the size-0 failure of the default case.
Tag byte values are the AML opcode constants from aml_opcodes.h (not under
src/): 0x00 zero, 0x01 one, 0xFF ones, 0x0A byte, 0x0B word, 0x0C dword,
0x0E qword; multi-byte literals are little-endian. -/
def lai_eval_integer (object : Nat → Nat) : Option (Nat × Nat) :=
  let tag := object 0 % 256
  let b (i : Nat) : Nat := object i % 256
  if tag = 0x00 then some (0, 1)                                  -- ZERO_OP
  else if tag = 0x01 then some (1, 1)                             -- ONE_OP
  else if tag = 0xFF then some (0xFFFFFFFFFFFFFFFF, 1)            -- ONES_OP
  else if tag = 0x0A then some (b 1, 2)                           -- BYTEPREFIX
  else if tag = 0x0B then some (b 1 ||| (b 2 <<< 8), 3)           -- WORDPREFIX
  else if tag = 0x0C then
    some (b 1 ||| (b 2 <<< 8) ||| (b 3 <<< 16) ||| (b 4 <<< 24), 5)  -- DWORDPREFIX
  else if tag = 0x0E then
    some (b 1 ||| (b 2 <<< 8) ||| (b 3 <<< 16) ||| (b 4 <<< 24) |||
          (b 5 <<< 32) ||| (b 6 <<< 40) ||| (b 7 <<< 48) ||| (b 8 <<< 56), 9) -- QWORDPREFIX
  else none

/-- lai_parse_pkgsize (eval.c:81-106).  Total on any byte stream (the C has
no failure path); returns (decoded size, bytes consumed). -/
def lai_parse_pkgsize (data : Nat → Nat) : Nat × Nat :=
  let b (i : Nat) : Nat := data i % 256
  let bytecount := (b 0 >>> 6) &&& 3
  let dest :=
    if bytecount = 0 then b 0 &&& 0x3F
    else if bytecount = 1 then (b 0 &&& 0x0F) ||| (b 1 <<< 4)
    else if bytecount = 2 then (b 0 &&& 0x0F) ||| (b 1 <<< 4) ||| (b 2 <<< 12)
    else (b 0 &&& 0x0F) ||| (b 1 <<< 4) ||| (b 2 <<< 12) ||| (b 3 <<< 20)
  (dest, bytecount + 1)

/-- lai_eval_package (eval.c:114-128), in explicit-state form: the result
pairs the C status code with the destination object after the call (the C
writes the destination only on the success path, via lai_copy_object). -/
def lai_eval_package (package : lai_object) (index : Nat) (destination : lai_object) :
    Nat × lai_object :=
  match package with
  | .package elems =>
    if h : index < elems.length then (0, elems.get ⟨index, h⟩)
    else (1, destination)       -- "attempt to evaluate index %d of package of size %d"
  | _ => (1, destination)       -- "attempt to evaluate non-package object"

/-- The per-set-bit emission loop of the small-IRQ case of lai_read_resource
(resource.c:72-93): while the mask is nonzero, bit i (tested in ascending
order of i) emits one IRQ entry with base i and is then cleared from the
mask (the C's mask &= ~(1 << i) is the xor with 1 <<< i under the
testBit guard).  The extra mask >>> i = 0 exit totalizes the function: in
that state (never reached from i = 0) the source loop would not terminate,
because all remaining set bits are below i. -/
def smallIrqBits (flags mask i : Nat) : List acpi_resource :=
  if mask = 0 then []
  else if mask >>> i = 0 then []
  else if mask.testBit i then
    { restype := .irq, base := i, irq_flags := flags } :: smallIrqBits flags (mask ^^^ (1 <<< i)) (i + 1)
  else smallIrqBits flags mask (i + 1)
termination_by mask >>> i
decreasing_by
  · have hx : (mask ^^^ (1 <<< i)) >>> (i + 1) = mask >>> (i + 1) := by
      apply Nat.eq_of_testBit_eq
      intro j
      simp only [Nat.testBit_shiftRight, Nat.testBit_xor, Nat.one_shiftLeft,
        Nat.testBit_two_pow_of_ne (by omega : i ≠ i + 1 + j), Bool.xor_false]
    rw [hx, Nat.shiftRight_succ]
    exact Nat.div_lt_self (Nat.pos_of_ne_zero ‹mask >>> i ≠ 0›) Nat.one_lt_two
  · rw [Nat.shiftRight_succ]
    exact Nat.div_lt_self (Nat.pos_of_ne_zero ‹mask >>> i ≠ 0›) Nat.one_lt_two

/-- The default IRQ flags of a 2-byte small IRQ payload (resource.c:86). -/
def defaultSmallIrqFlags : Nat :=
  ACPI_IRQ_ACTIVE_HIGH ||| ACPI_IRQ_EDGE ||| ACPI_IRQ_EXCLUSIVE

/-- The descriptor-walking loop of lai_read_resource (resource.c:56-128),
over the raw _CRS byte buffer, with the destination array and running count
modelled by the accumulator.  Results: some l - the call returns count
l.length with entries l (so the default cases return some [], count 0,
discarding the accumulator exactly as the source discards its count);
none - the source reads past the end of the buffer (undefined behavior). -/
def lai_read_resource_loop (data : List Nat) (acc : List acpi_resource) :
    Option (List acpi_resource) :=
  match data with
  | [] => none                      -- while(data[0] != 0x79) reads past the buffer
  | b :: rest =>
    let b0 := b % 256
    if b0 = 0x79 then some acc      -- loop condition fails: return count
    else if b0 &&& 0x80 = 0 then
      -- small resource descriptor
      let dataSize := b0 &&& 7
      if b0 >>> 3 = 0x0F then some acc    -- ACPI_SMALL_END: return count
      else if b0 >>> 3 = 0x04 then        -- ACPI_SMALL_IRQ
        match rest[0]?, rest[1]? with
        | some m0, some m1 =>
          let mask := (m0 % 256) ||| ((m1 % 256) <<< 8)   -- uint16 irq_mask at data[1]
          if 3 ≤ dataSize then
            match rest[2]? with           -- config byte at data[3]
            | some cfg =>
              lai_read_resource_loop ((b :: rest).drop (dataSize + 1))
                (acc ++ smallIrqBits (cfg % 256) mask 0)
            | none => none
          else
            lai_read_resource_loop ((b :: rest).drop (dataSize + 1))
              (acc ++ smallIrqBits defaultSmallIrqFlags mask 0)
        | _, _ => none
      else some []                        -- undefined small resource: return 0
    else
      -- large resource descriptor
      match rest[0]?, rest[1]? with
      | some s0, some s1 =>
        let dataSize := (s0 % 256) ||| ((s1 % 256) <<< 8)
        if b0 = 0x89 then                 -- ACPI_LARGE_IRQ
          match rest[2]?, rest[4]?, rest[5]?, rest[6]?, rest[7]? with
          | some cfg, some i0, some i1, some i2, some i3 =>
            lai_read_resource_loop ((b :: rest).drop (dataSize + 3))
              (acc ++ [{ restype := .irq,
                         base := (i0 % 256) ||| ((i1 % 256) <<< 8) |||
                                 ((i2 % 256) <<< 16) ||| ((i3 % 256) <<< 24),
                         irq_flags := cfg % 256 }])
          | _, _, _, _, _ => none
        else some []                      -- undefined large resource: return 0
      | _, _ => none
termination_by data.length
decreasing_by
  · simp only [List.length_drop, List.length_cons]
    omega
  · simp only [List.length_drop, List.length_cons]
    omega
  · simp only [List.length_drop, List.length_cons]
    omega

/-- lai_read_resource (resource.c:33-129) applied to the bytes of the
device's already-evaluated _CRS buffer (the _CRS evaluation itself goes
through the external namespace layer and is out of scope). -/
def lai_read_resource_buf (data : List Nat) : Option (List acpi_resource) :=
  lai_read_resource_loop data []

/-- Spec-side classification of a descriptor stream, walking records
exactly as lai_read_resource does: some true - an unrecognized descriptor
type occurs before any end tag; some false - an end tag is reached first;
none - the walk runs off the end of the buffer (undefined behavior in the
source). -/
def resBadBeforeEnd (data : List Nat) : Option Bool :=
  match data with
  | [] => none
  | b :: rest =>
    let b0 := b % 256
    if b0 = 0x79 then some false
    else if b0 &&& 0x80 = 0 then
      let dataSize := b0 &&& 7
      if b0 >>> 3 = 0x0F then some false
      else if b0 >>> 3 = 0x04 then
        match rest[0]?, rest[1]? with
        | some _, some _ =>
          if 3 ≤ dataSize then
            match rest[2]? with
            | some _ => resBadBeforeEnd ((b :: rest).drop (dataSize + 1))
            | none => none
          else resBadBeforeEnd ((b :: rest).drop (dataSize + 1))
        | _, _ => none
      else some true
    else
      match rest[0]?, rest[1]? with
      | some s0, some s1 =>
        let dataSize := (s0 % 256) ||| ((s1 % 256) <<< 8)
        if b0 = 0x89 then
          match rest[2]?, rest[4]?, rest[5]?, rest[6]?, rest[7]? with
          | some _, some _, some _, some _, some _ =>
            resBadBeforeEnd ((b :: rest).drop (dataSize + 3))
          | _, _, _, _, _ => none
        else some true
      | _, _ => none
termination_by data.length
decreasing_by
  · simp only [List.length_drop, List.length_cons]
    omega
  · simp only [List.length_drop, List.length_cons]
    omega
  · simp only [List.length_drop, List.length_cons]
    omega

/-- Step 1 of lai_pci_route (pciroute.c:33-37): the interrupt pin is the
high byte of the 16-bit PCI config read at offset 0x3C; pin 0 or pin > 4
fails (return 1), otherwise the algorithm continues with pin - 1. -/
def lai_pci_route_pin (cfgword : Nat) : Option Nat :=
  let pin := (cfgword >>> 8) % 256        -- (uint8_t)(laihost_pci_read(...) >> 8)
  if pin = 0 ∨ pin > 4 then none
  else some (pin - 1)

/-- The _PRT scan loop of lai_pci_route (pciroute.c:95-135), over the
elements of the _PRT package, in ascending index order (the structural
recursion consumes the elements in index order; reaching [] is
lai_eval_package failing once i reaches the package length, return 1).
Result: some entry - the goto resolve_pin with that matched inner package;
none - return 1 (scan exhausted or a malformed entry). -/
def lai_pci_route_scan (prt : List lai_object) (slot function pin : Nat) :
    Option lai_object :=
  match prt with
  | [] => none
  | prt_package :: rest =>
    match prt_package with
    | .package elems =>
      match lai_eval_package (.package elems) 0 .uninitialized with
      | (0, .integer addr) =>
        if addr >>> 16 = slot then
          if addr &&& 0xFFFF = 0xFFFF ∨ addr &&& 0xFFFF = function then
            match lai_eval_package (.package elems) 1 .uninitialized with
            | (0, .integer p) =>
              if p = pin then some (.package elems)
              else lai_pci_route_scan rest slot function pin
            | (0, _) => none          -- prt_entry.type != LAI_INTEGER: return 1
            | _ => none               -- lai_eval_package failed: return 1
          else lai_pci_route_scan rest slot function pin
        else lai_pci_route_scan rest slot function pin
      | (0, _) => none                -- prt_entry.type != LAI_INTEGER: return 1
      | _ => none                     -- lai_eval_package failed: return 1
    | _ => none                       -- prt_package.type != LAI_PACKAGE: return 1

/-- Outcome of the entry-resolution tail of lai_pci_route
(pciroute.c:137-192), distinguishing success with the destination written,
success with the destination left unwritten (the return 0 at line 190), C
failure (return 1), and source undefined behavior. -/
inductive RouteResult where
  | ok : acpi_resource → RouteResult   -- return 0, dest written
  | okUnset : RouteResult              -- return 0, dest NOT written
  | fail : RouteResult                 -- return 1
  | ub : RouteResult                   -- undefined behavior in the source
  deriving DecidableEq

/-- The scan of the link device's resource list for the first IRQ entry
(pciroute.c:172-188). -/
def findIrqRes : List acpi_resource → Option acpi_resource
  | [] => none
  | r :: rest => if r.restype = .irq then some r else findIrqRes rest

/-- The resolve_pin tail of lai_pci_route (pciroute.c:137-192): element [2]
of the matched entry selects the GSI branch (Integer) or the interrupt-link
branch (Handle).  In the GSI branch the source reads prt_entry.integer
without a type check; a non-integer element [3] reads an inactive union
member, modelled as ub. -/
def lai_pci_route_resolve (prt_package : lai_object) : RouteResult :=
  match lai_eval_package prt_package 2 .uninitialized with
  | (0, .integer _) =>
    -- GSI
    match lai_eval_package prt_package 3 .uninitialized with
    | (0, .integer gsi) =>
      .ok { restype := .irq, base := gsi,
            irq_flags := ACPI_IRQ_LEVEL ||| ACPI_IRQ_ACTIVE_HIGH ||| ACPI_IRQ_SHARED }
    | (0, _) => .ub                  -- dest->base reads an inactive union member
    | _ => .fail                     -- lai_eval_package failed: return 1
  | (0, .handle crs) =>
    -- PCI interrupt link device
    match lai_read_resource_buf crs with
    | none => .ub
    | some res =>
      if res.length = 0 then .fail   -- if(!res_count) return 1
      else
        match findIrqRes res with
        | some r => .ok { restype := .irq, base := r.base, irq_flags := r.irq_flags }
        | none => .okUnset           -- return 0 with dest untouched (line 190)
  | (0, _) => .fail                  -- neither Integer nor Handle: return 1
  | _ => .fail                       -- lai_eval_package failed: return 1

/-- Modelled from the spec: the PkgLength encoder constructed from the
layout description (the source has no encoder).  The top two bits of byte 0
are the byte-count selector; the one-byte form stores the 6 low bits of the
size in byte 0; the wider forms store the low 4 bits in byte 0 and 8 more
bits per subsequent byte, most-significant byte last.  The minimal
sufficient width is chosen, so the maximum representable value is
2^28 - 1. -/
def encodePkgsize (n : Nat) : List Nat :=
  if n < 2 ^ 6 then [n]
  else if n < 2 ^ 12 then
    [(1 <<< 6) ||| (n &&& 0xF), (n >>> 4) &&& 0xFF]
  else if n < 2 ^ 20 then
    [(2 <<< 6) ||| (n &&& 0xF), (n >>> 4) &&& 0xFF, (n >>> 12) &&& 0xFF]
  else
    [(3 <<< 6) ||| (n &&& 0xF), (n >>> 4) &&& 0xFF, (n >>> 12) &&& 0xFF, (n >>> 20) &&& 0xFF]

/-- Modelled from the spec: the byte-count selector the encoder picks for a
given size value. -/
def pkgSelector (n : Nat) : Nat :=
  if n < 2 ^ 6 then 0
  else if n < 2 ^ 12 then 1
  else if n < 2 ^ 20 then 2
  else 3

/-- The spec-side matching predicate for one _PRT entry (package form):
its packed address selects the target slot, its function field equals the
target function or the wildcard 0xFFFF, and its pin equals the queried pin.
Transcribed from the conditions at pciroute.c:104-128, for comparison with
the scan function. -/
def prtEntryMatches (slot function pin : Nat) (v : lai_object) : Bool :=
  match v with
  | .package elems =>
    match elems[0]?, elems[1]? with
    | some (lai_object.integer addr), some (lai_object.integer p) =>
      (addr >>> 16 == slot) &&
        ((addr &&& 0xFFFF == 0xFFFF) || (addr &&& 0xFFFF == function)) &&
        (p == pin)
    | _, _ => false
  | _ => false

/-- Well-formedness of a _PRT entry as far as the scan loop reads it:
a package whose elements 0 and 1 exist and are integers. -/
def prtEntryWF (v : lai_object) : Bool :=
  match v with
  | .package elems =>
    match elems[0]?, elems[1]? with
    | some (lai_object.integer _), some (lai_object.integer _) => true
    | _, _ => false
  | _ => false

/- ---------------------------------------------------------------------
   Shared arithmetic lemmas
   --------------------------------------------------------------------- -/

theorem or_shl_add {a : Nat} {b k : Nat} (h : a < 2 ^ k) :
    a ||| (b <<< k) = a + b * 2 ^ k := by
  rw [Nat.lor_comm, Nat.shiftLeft_eq, Nat.mul_comm b (2 ^ k),
    ← Nat.mul_add_lt_is_or h b]
  omega

theorem and_mask3 (x : Nat) : x &&& 3 = x % 4 :=
  Nat.and_pow_two_sub_one_eq_mod x 2

theorem and_mask7 (x : Nat) : x &&& 7 = x % 8 :=
  Nat.and_pow_two_sub_one_eq_mod x 3

theorem and_mask15 (x : Nat) : x &&& 15 = x % 16 :=
  Nat.and_pow_two_sub_one_eq_mod x 4

theorem and_mask63 (x : Nat) : x &&& 63 = x % 64 :=
  Nat.and_pow_two_sub_one_eq_mod x 6

theorem and_mask255 (x : Nat) : x &&& 255 = x % 256 :=
  Nat.and_pow_two_sub_one_eq_mod x 8

theorem and_mask65535 (x : Nat) : x &&& 65535 = x % 65536 :=
  Nat.and_pow_two_sub_one_eq_mod x 16

theorem shr_div (x k : Nat) : x >>> k = x / 2 ^ k :=
  Nat.shiftRight_eq_div_pow x k

theorem or_const_shl {c x k : Nat} (h : x < 2 ^ k) :
    (c <<< k) ||| x = x + c * 2 ^ k := by
  rw [Nat.lor_comm]
  exact or_shl_add h

theorem or_eq_add_of_dvd (k : Nat) {a b : Nat} (hd : 2 ^ k ∣ a) (hb : b < 2 ^ k) :
    a ||| b = a + b := by
  obtain ⟨c, rfl⟩ := hd
  exact (Nat.mul_add_lt_is_or hb c).symm

theorem and_mask4294967295 (x : Nat) : x &&& 4294967295 = x % 4294967296 :=
  Nat.and_pow_two_sub_one_eq_mod x 32

/- ---------------------------------------------------------------------
   Claim C4 (corrected)
   --------------------------------------------------------------------- -/

/-- Claim C4 counterexample: the character code 47 (the ASCII character
one below the digit zero, and not a hex digit) makes char_to_hex return
255, not 0: the first branch's uint8_t wraparound applies to every
character below the digit zero. -/
theorem C4_counterexample : char_to_hex 47 = 255 ∧ char_to_hex 47 ≠ 0 := by
  decide

/-- Claim C4, amended: for ASCII characters that are not hex digits,
char_to_hex returns 0 only when the code is at least that of the digit
zero (0x30); for codes below 0x30 it returns the uint8_t wraparound of
(c - 0x30), which is nonzero. -/
theorem C4_char_to_hex_amended (c : Nat) (hc : c < 128)
    (hnothex : ¬(48 ≤ c ∧ c ≤ 57) ∧ ¬(65 ≤ c ∧ c ≤ 70) ∧ ¬(97 ≤ c ∧ c ≤ 102)) :
    (48 ≤ c → char_to_hex c = 0) ∧
    (c < 48 → char_to_hex c = (c + 256 - 48) % 256 ∧ char_to_hex c ≠ 0) := by
  constructor
  · intro h48
    unfold char_to_hex
    rw [if_neg (by omega), if_neg (by omega), if_neg (by omega)]
  · intro hlt
    unfold char_to_hex
    rw [if_pos (by omega)]
    constructor
    · rfl
    · omega

/-- Witness for the amended C4 theorem at the colon character (0x3A, above
the digits) and at the slash character (0x2F, below the digit zero). -/
theorem C4_amended_witness : char_to_hex 58 = 0 ∧ char_to_hex 47 ≠ 0 := by
  constructor
  · exact (C4_char_to_hex_amended 58 (by omega) (by omega)).1 (by omega)
  · exact ((C4_char_to_hex_amended 47 (by omega) (by omega)).2 (by omega)).2

/- ---------------------------------------------------------------------
   Claim C5 (confirmed)
   --------------------------------------------------------------------- -/

/-- Claim C5: the interrupt pin is the high byte of the 16-bit config read
at offset 0x3C; pin bytes 1..4 continue with logical pin index pin - 1,
and pin byte 0 or any pin byte above 4 fails immediately. -/
theorem C5_pin_mapping (cfgword : Nat) (hw : cfgword < 65536) :
    (1 ≤ cfgword >>> 8 ∧ cfgword >>> 8 ≤ 4 →
      lai_pci_route_pin cfgword = some (cfgword >>> 8 - 1)) ∧
    ((cfgword >>> 8 = 0 ∨ 4 < cfgword >>> 8) →
      lai_pci_route_pin cfgword = none) := by
  have h8 : cfgword >>> 8 < 256 := by
    rw [shr_div]
    omega
  have hm : cfgword >>> 8 % 256 = cfgword >>> 8 := Nat.mod_eq_of_lt h8
  constructor
  · intro h
    unfold lai_pci_route_pin
    simp only [hm]
    rw [if_neg (by omega)]
  · intro h
    unfold lai_pci_route_pin
    simp only [hm]
    rw [if_pos (by omega)]

/-- Witness for C5: config word 0x0100 (pin byte 1) maps to pin index 0;
config words 0x0000 (pin byte 0) and 0x0500 (pin byte 5) fail. -/
theorem C5_pin_mapping_witness :
    lai_pci_route_pin 0x0100 = some 0 ∧
    lai_pci_route_pin 0x0000 = none ∧ lai_pci_route_pin 0x0500 = none := by
  refine ⟨(C5_pin_mapping 0x0100 (by omega)).1 (by decide), ?_, ?_⟩
  · exact (C5_pin_mapping 0x0000 (by omega)).2 (by decide)
  · exact (C5_pin_mapping 0x0500 (by omega)).2 (by decide)

/- ---------------------------------------------------------------------
   Claim C10 (confirmed)
   --------------------------------------------------------------------- -/

/-- Claim C10: every failing lai_eval_package call - the source object is
not a package, or the index is at least the package length - returns
status 1 with the caller's destination object exactly as it was: no field
of the destination is written on any failure path. -/
theorem C10_eval_package_no_write (package : lai_object) (index : Nat)
    (destination : lai_object)
    (hfail : match package with
             | .package elems => elems.length ≤ index
             | _ => True) :
    lai_eval_package package index destination = (1, destination) := by
  cases package <;> simp only [lai_eval_package]
  rename_i elems
  rw [dif_neg (by simp only at hfail; omega)]

/-- Witness for C10: a non-package source and an out-of-range index both
leave a recognizable destination untouched. -/
theorem C10_eval_package_no_write_witness :
    lai_eval_package (.integer 5) 0 (.string [7]) = (1, .string [7]) ∧
    lai_eval_package (.package [.integer 9]) 3 (.string [7]) = (1, .string [7]) := by
  constructor
  · exact C10_eval_package_no_write (.integer 5) 0 (.string [7]) trivial
  · exact C10_eval_package_no_write (.package [.integer 9]) 3 (.string [7]) (by simp)

/- ---------------------------------------------------------------------
   Claim C7 (confirmed)
   --------------------------------------------------------------------- -/

/-- Claim C7: lai_eval_integer returns, per tag byte, value 0 with size 1
for the zero constant, 1 with size 1 for the one constant, the all-ones
64-bit constant with size 1, the little-endian literal following the tag
with sizes 2, 3, 5, 9 for the byte/word/dword/qword prefixes, and decode
failure (size 0, modelled as none) for every other tag byte. -/
theorem C7_eval_integer (object : Nat → Nat) (hb : ∀ i, object i < 256) :
    (object 0 = 0x00 → lai_eval_integer object = some (0, 1)) ∧
    (object 0 = 0x01 → lai_eval_integer object = some (1, 1)) ∧
    (object 0 = 0xFF → lai_eval_integer object = some (2 ^ 64 - 1, 1)) ∧
    (object 0 = 0x0A → lai_eval_integer object = some (object 1, 2)) ∧
    (object 0 = 0x0B →
      lai_eval_integer object = some (object 1 + object 2 * 2 ^ 8, 3)) ∧
    (object 0 = 0x0C →
      lai_eval_integer object =
        some (object 1 + object 2 * 2 ^ 8 + object 3 * 2 ^ 16 + object 4 * 2 ^ 24, 5)) ∧
    (object 0 = 0x0E →
      lai_eval_integer object =
        some (object 1 + object 2 * 2 ^ 8 + object 3 * 2 ^ 16 + object 4 * 2 ^ 24 +
              object 5 * 2 ^ 32 + object 6 * 2 ^ 40 + object 7 * 2 ^ 48 +
              object 8 * 2 ^ 56, 9)) ∧
    (object 0 ≠ 0x00 → object 0 ≠ 0x01 → object 0 ≠ 0xFF → object 0 ≠ 0x0A →
      object 0 ≠ 0x0B → object 0 ≠ 0x0C → object 0 ≠ 0x0E →
      lai_eval_integer object = none) := by
  have hm : ∀ i, object i % 256 = object i := fun i => Nat.mod_eq_of_lt (hb i)
  have e1 : object 1 ||| (object 2 <<< 8) = object 1 + object 2 * 256 := by
    rw [or_shl_add (show object 1 < 2 ^ 8 by have := hb 1; omega)]
    norm_num
  have e2 : (object 1 + object 2 * 256) ||| (object 3 <<< 16) =
      object 1 + object 2 * 256 + object 3 * 65536 := by
    rw [or_shl_add (show object 1 + object 2 * 256 < 2 ^ 16 by
      have := hb 1; have := hb 2; omega)]
    norm_num
  have e3 : (object 1 + object 2 * 256 + object 3 * 65536) ||| (object 4 <<< 24) =
      object 1 + object 2 * 256 + object 3 * 65536 + object 4 * 16777216 := by
    rw [or_shl_add (show object 1 + object 2 * 256 + object 3 * 65536 < 2 ^ 24 by
      have := hb 1; have := hb 2; have := hb 3; omega)]
    norm_num
  have e4 : (object 1 + object 2 * 256 + object 3 * 65536 + object 4 * 16777216) |||
        (object 5 <<< 32) =
      object 1 + object 2 * 256 + object 3 * 65536 + object 4 * 16777216 +
        object 5 * 4294967296 := by
    rw [or_shl_add (show
      object 1 + object 2 * 256 + object 3 * 65536 + object 4 * 16777216 < 2 ^ 32 by
      have := hb 1; have := hb 2; have := hb 3; have := hb 4; omega)]
    norm_num
  have e5 : (object 1 + object 2 * 256 + object 3 * 65536 + object 4 * 16777216 +
        object 5 * 4294967296) ||| (object 6 <<< 40) =
      object 1 + object 2 * 256 + object 3 * 65536 + object 4 * 16777216 +
        object 5 * 4294967296 + object 6 * 1099511627776 := by
    rw [or_shl_add (show
      object 1 + object 2 * 256 + object 3 * 65536 + object 4 * 16777216 +
        object 5 * 4294967296 < 2 ^ 40 by
      have := hb 1; have := hb 2; have := hb 3; have := hb 4; have := hb 5; omega)]
    norm_num
  have e6 : (object 1 + object 2 * 256 + object 3 * 65536 + object 4 * 16777216 +
        object 5 * 4294967296 + object 6 * 1099511627776) ||| (object 7 <<< 48) =
      object 1 + object 2 * 256 + object 3 * 65536 + object 4 * 16777216 +
        object 5 * 4294967296 + object 6 * 1099511627776 +
        object 7 * 281474976710656 := by
    rw [or_shl_add (show
      object 1 + object 2 * 256 + object 3 * 65536 + object 4 * 16777216 +
        object 5 * 4294967296 + object 6 * 1099511627776 < 2 ^ 48 by
      have := hb 1; have := hb 2; have := hb 3; have := hb 4; have := hb 5
      have := hb 6; omega)]
    norm_num
  have e7 : (object 1 + object 2 * 256 + object 3 * 65536 + object 4 * 16777216 +
        object 5 * 4294967296 + object 6 * 1099511627776 +
        object 7 * 281474976710656) ||| (object 8 <<< 56) =
      object 1 + object 2 * 256 + object 3 * 65536 + object 4 * 16777216 +
        object 5 * 4294967296 + object 6 * 1099511627776 +
        object 7 * 281474976710656 + object 8 * 72057594037927936 := by
    rw [or_shl_add (show
      object 1 + object 2 * 256 + object 3 * 65536 + object 4 * 16777216 +
        object 5 * 4294967296 + object 6 * 1099511627776 +
        object 7 * 281474976710656 < 2 ^ 56 by
      have := hb 1; have := hb 2; have := hb 3; have := hb 4; have := hb 5
      have := hb 6; have := hb 7; omega)]
    norm_num
  refine ⟨fun h => ?_, fun h => ?_, fun h => ?_, fun h => ?_, fun h => ?_,
    fun h => ?_, fun h => ?_, fun h1 h2 h3 h4 h5 h6 h7 => ?_⟩
  · simp [lai_eval_integer, h, hm]
  · simp [lai_eval_integer, h, hm]
  · simp [lai_eval_integer, h, hm]
  · simp [lai_eval_integer, h, hm]
  · simp [lai_eval_integer, h, hm, e1]
  · simp [lai_eval_integer, h, hm, e1, e2, e3]
  · simp [lai_eval_integer, h, hm, e1, e2, e3, e4, e5, e6, e7]
  · simp [lai_eval_integer, hm, h1, h2, h3, h4, h5, h6, h7]

/-- Witness for C7 at a concrete dword-prefixed stream and at an
unrecognized tag. -/
theorem C7_eval_integer_witness :
    lai_eval_integer (fun i => if i = 0 then 0x0C else 2) =
      some (2 + 2 * 2 ^ 8 + 2 * 2 ^ 16 + 2 * 2 ^ 24, 5) ∧
    lai_eval_integer (fun _ => 2) = none := by
  have hbound : ∀ i : Nat, (fun i : Nat => if i = 0 then 0x0C else 2) i < 256 := by
    intro i
    by_cases hi : i = 0 <;> simp [hi]
  have hbound2 : ∀ i : Nat, (fun _ : Nat => (2 : Nat)) i < 256 := by
    intro i
    norm_num
  constructor
  · exact (C7_eval_integer (fun i => if i = 0 then 0x0C else 2) hbound).2.2.2.2.2.1 rfl
  · exact (C7_eval_integer (fun _ => 2) hbound2).2.2.2.2.2.2.2
      (by norm_num) (by norm_num) (by norm_num) (by norm_num) (by norm_num)
      (by norm_num) (by norm_num)

/- ---------------------------------------------------------------------
   Claim C8 (confirmed)
   --------------------------------------------------------------------- -/

/-- Byte-level arithmetic characterization of lai_parse_pkgsize: on a
stream of bytes, the decoded size and consumed count in pure div/mod
form. -/
theorem parse_pkgsize_bytes (data : Nat → Nat)
    (hb0 : data 0 < 256) (hb1 : data 1 < 256) (hb2 : data 2 < 256)
    (hb3 : data 3 < 256) :
    lai_parse_pkgsize data =
      (if data 0 / 64 % 4 = 0 then data 0 % 64
       else if data 0 / 64 % 4 = 1 then data 0 % 16 + data 1 * 16
       else if data 0 / 64 % 4 = 2 then
         data 0 % 16 + data 1 * 16 + data 2 * 4096
       else data 0 % 16 + data 1 * 16 + data 2 * 4096 + data 3 * 1048576,
       data 0 / 64 % 4 + 1) := by
  have m0 := Nat.mod_eq_of_lt hb0
  have m1 := Nat.mod_eq_of_lt hb1
  have m2 := Nat.mod_eq_of_lt hb2
  have m3 := Nat.mod_eq_of_lt hb3
  have p6 : (2 : Nat) ^ 6 = 64 := by norm_num
  simp only [lai_parse_pkgsize, m0, m1, m2, m3, shr_div, and_mask3, p6]
  split_ifs with hc0 hc1 hc2
  · rw [and_mask63]
  · rw [and_mask15, or_shl_add (show data 0 % 16 < 2 ^ 4 by omega)]
    norm_num
  · rw [and_mask15, or_shl_add (show data 0 % 16 < 2 ^ 4 by omega)]
    norm_num
    rw [or_shl_add (show data 0 % 16 + data 1 * 16 < 2 ^ 12 by omega)]
    norm_num
  · rw [and_mask15, or_shl_add (show data 0 % 16 < 2 ^ 4 by omega)]
    norm_num
    rw [or_shl_add (show data 0 % 16 + data 1 * 16 < 2 ^ 12 by omega)]
    norm_num
    rw [or_shl_add (show data 0 % 16 + data 1 * 16 + data 2 * 4096 < 2 ^ 20 by
      omega)]
    norm_num

/-- Claim C8: encoding any representable size (sizes up to 2^28 - 1) with
the spec-side encoder and decoding with lai_parse_pkgsize recovers the
original value and the encoder's byte-count selector; and on every input
byte stream the decoder consumes exactly selector + 1 bytes (1 to 4) and
never fails (it is a total function). -/
theorem C8_pkgsize_roundtrip (n : Nat) (hn : n < 2 ^ 28) (data : Nat → Nat)
    (hdb : ∀ i, data i < 256) :
    lai_parse_pkgsize (fun i => (encodePkgsize n).getD i 0) =
      (n, pkgSelector n + 1) ∧
    (lai_parse_pkgsize data).2 = data 0 / 64 % 4 + 1 ∧
    1 ≤ (lai_parse_pkgsize data).2 ∧ (lai_parse_pkgsize data).2 ≤ 4 := by
  have hgen : (lai_parse_pkgsize data).2 = data 0 / 64 % 4 + 1 := by
    rw [parse_pkgsize_bytes data (hdb 0) (hdb 1) (hdb 2) (hdb 3)]
  refine ⟨?_, hgen, by omega, by rw [hgen]; omega⟩
  by_cases h1 : n < 2 ^ 6
  · have henc : encodePkgsize n = [n] := by
      unfold encodePkgsize
      rw [if_pos h1]
    have hsel : pkgSelector n = 0 := by
      unfold pkgSelector
      rw [if_pos h1]
    rw [henc, hsel]
    rw [parse_pkgsize_bytes _ (by simp only [List.getD_cons_zero]; omega)
      (by simp) (by simp) (by simp)]
    simp only [List.getD_cons_zero, List.getD_nil]
    rw [if_pos (by omega : n / 64 % 4 = 0)]
    simp only [Prod.mk.injEq]
    constructor <;> omega
  · by_cases h2 : n < 2 ^ 12
    · have hb0 : (1 <<< 6) ||| (n &&& 0xF) = n % 16 + 64 := by
        rw [and_mask15, or_const_shl (show n % 16 < 2 ^ 6 by omega)]
        norm_num
      have hb1 : (n >>> 4) &&& 0xFF = n / 16 := by
        rw [shr_div, and_mask255]
        norm_num
        omega
      have henc : encodePkgsize n = [n % 16 + 64, n / 16] := by
        unfold encodePkgsize
        rw [if_neg h1, if_pos h2, hb0, hb1]
      have hsel : pkgSelector n = 1 := by
        unfold pkgSelector
        rw [if_neg h1, if_pos h2]
      rw [henc, hsel]
      rw [parse_pkgsize_bytes _ (by simp only [List.getD_cons_zero]; omega)
        (by simp only [List.getD_cons_succ, List.getD_cons_zero]; omega)
        (by simp) (by simp)]
      simp only [List.getD_cons_zero, List.getD_cons_succ, List.getD_nil]
      rw [if_neg (by omega), if_pos (by omega : (n % 16 + 64) / 64 % 4 = 1)]
      simp only [Prod.mk.injEq]
      constructor <;> omega
    · by_cases h3 : n < 2 ^ 20
      · have hb0 : (2 <<< 6) ||| (n &&& 0xF) = n % 16 + 128 := by
          rw [and_mask15, or_const_shl (show n % 16 < 2 ^ 6 by omega)]
          norm_num
        have hb1 : (n >>> 4) &&& 0xFF = n / 16 % 256 := by
          rw [shr_div, and_mask255]
          norm_num
        have hb2 : (n >>> 12) &&& 0xFF = n / 4096 := by
          rw [shr_div, and_mask255]
          norm_num
          omega
        have henc : encodePkgsize n = [n % 16 + 128, n / 16 % 256, n / 4096] := by
          unfold encodePkgsize
          rw [if_neg h1, if_neg h2, if_pos h3, hb0, hb1, hb2]
        have hsel : pkgSelector n = 2 := by
          unfold pkgSelector
          rw [if_neg h1, if_neg h2, if_pos h3]
        rw [henc, hsel]
        rw [parse_pkgsize_bytes _ (by simp only [List.getD_cons_zero]; omega)
          (by simp only [List.getD_cons_succ, List.getD_cons_zero]; omega)
          (by simp only [List.getD_cons_succ, List.getD_cons_zero]; omega)
          (by simp)]
        simp only [List.getD_cons_zero, List.getD_cons_succ, List.getD_nil]
        rw [if_neg (by omega), if_neg (by omega),
          if_pos (by omega : (n % 16 + 128) / 64 % 4 = 2)]
        simp only [Prod.mk.injEq]
        constructor <;> omega
      · have hb0 : (3 <<< 6) ||| (n &&& 0xF) = n % 16 + 192 := by
          rw [and_mask15, or_const_shl (show n % 16 < 2 ^ 6 by omega)]
          norm_num
        have hb1 : (n >>> 4) &&& 0xFF = n / 16 % 256 := by
          rw [shr_div, and_mask255]
          norm_num
        have hb2 : (n >>> 12) &&& 0xFF = n / 4096 % 256 := by
          rw [shr_div, and_mask255]
          norm_num
        have hb3 : (n >>> 20) &&& 0xFF = n / 1048576 := by
          rw [shr_div, and_mask255]
          norm_num
          omega
        have henc : encodePkgsize n =
            [n % 16 + 192, n / 16 % 256, n / 4096 % 256, n / 1048576] := by
          unfold encodePkgsize
          rw [if_neg h1, if_neg h2, if_neg h3, hb0, hb1, hb2, hb3]
        have hsel : pkgSelector n = 3 := by
          unfold pkgSelector
          rw [if_neg h1, if_neg h2, if_neg h3]
        rw [henc, hsel]
        rw [parse_pkgsize_bytes _ (by simp only [List.getD_cons_zero]; omega)
          (by simp only [List.getD_cons_succ, List.getD_cons_zero]; omega)
          (by simp only [List.getD_cons_succ, List.getD_cons_zero]; omega)
          (by simp only [List.getD_cons_succ, List.getD_cons_zero]; omega)]
        simp only [List.getD_cons_zero, List.getD_cons_succ, List.getD_nil]
        rw [if_neg (by omega), if_neg (by omega), if_neg (by omega)]
        simp only [Prod.mk.injEq]
        constructor <;> omega

/-- Witness for C8: size 1048576 encodes to a 4-byte form and decodes back
to itself with selector 3; the generic consumed-count facts hold on an
all-0xC0 stream. -/
theorem C8_pkgsize_roundtrip_witness :
    lai_parse_pkgsize (fun i => (encodePkgsize 1048576).getD i 0) =
      (1048576, 4) ∧
    (lai_parse_pkgsize (fun _ => 0xC0)).2 = 4 := by
  have h := C8_pkgsize_roundtrip 1048576 (by norm_num) (fun _ => 0xC0)
    (fun i => by norm_num)
  refine ⟨?_, ?_⟩
  · have h1 := h.1
    rw [h1]
    norm_num [pkgSelector]
  · have h2 := h.2.1
    rw [h2]
    norm_num

/- ---------------------------------------------------------------------
   Claim C6 (confirmed)
   --------------------------------------------------------------------- -/

/-- The byte-swapped value is always a 32-bit quantity. -/
theorem bswap32_lt (d : Nat) : bswap32 d < 2 ^ 32 := by
  unfold bswap32
  have hA : (d >>> 24) &&& 0xFF < 2 ^ 32 :=
    lt_of_le_of_lt Nat.and_le_right (by norm_num)
  have hB : (d <<< 8) &&& 0xFF0000 < 2 ^ 32 :=
    lt_of_le_of_lt Nat.and_le_right (by norm_num)
  have hC : (d >>> 8) &&& 0xFF00 < 2 ^ 32 :=
    lt_of_le_of_lt Nat.and_le_right (by norm_num)
  have hD : (d <<< 24) &&& 0xFF000000 < 2 ^ 32 :=
    lt_of_le_of_lt Nat.and_le_right (by norm_num)
  exact Nat.or_lt_two_pow (Nat.or_lt_two_pow (Nat.or_lt_two_pow hA hB) hC) hD

/-- Claim C6: on a length-7 id string of letter codes in [0x40, 0x60) and
hex-digit characters, lai_eisaid produces an Integer object holding the
byte-swap of the 32-bit packing in which each letter contributes 5 bits
(its code minus 0x40, at bit offsets 26/21/16) and the four hex digits
contribute four nibbles in the low 16 bits; on any id whose length is not
7 it produces a String object wrapping the input unchanged. -/
theorem C6_eisaid_packing (c0 c1 c2 d3 d4 d5 d6 : Nat)
    (h0 : 64 ≤ c0 ∧ c0 < 96) (h1 : 64 ≤ c1 ∧ c1 < 96) (h2 : 64 ≤ c2 ∧ c2 < 96)
    (h3 : char_to_hex d3 < 16) (h4 : char_to_hex d4 < 16)
    (h5 : char_to_hex d5 < 16) (h6 : char_to_hex d6 < 16) :
    lai_eisaid [c0, c1, c2, d3, d4, d5, d6] =
      .integer (bswap32 ((c0 - 64) * 2 ^ 26 + (c1 - 64) * 2 ^ 21 +
        (c2 - 64) * 2 ^ 16 + char_to_hex d3 * 2 ^ 12 + char_to_hex d4 * 2 ^ 8 +
        char_to_hex d5 * 2 ^ 4 + char_to_hex d6)) ∧
    ∀ s : List Nat, s.length ≠ 7 → lai_eisaid s = .string s := by
  constructor
  · unfold lai_eisaid
    rw [if_neg (by simp)]
    simp only [List.getD_cons_zero, List.getD_cons_succ, Nat.shiftLeft_eq]
    have e1 : (c0 - 64) * 2 ^ 26 ||| (c1 - 64) * 2 ^ 21 =
        (c0 - 64) * 2 ^ 26 + (c1 - 64) * 2 ^ 21 :=
      or_eq_add_of_dvd 26 ⟨(c0 - 64), by ring⟩ (by omega)
    have e2 : ((c0 - 64) * 2 ^ 26 + (c1 - 64) * 2 ^ 21) ||| (c2 - 64) * 2 ^ 16 =
        (c0 - 64) * 2 ^ 26 + (c1 - 64) * 2 ^ 21 + (c2 - 64) * 2 ^ 16 :=
      or_eq_add_of_dvd 21 ⟨(c0 - 64) * 2 ^ 5 + (c1 - 64), by ring⟩ (by omega)
    have e3 : ((c0 - 64) * 2 ^ 26 + (c1 - 64) * 2 ^ 21 + (c2 - 64) * 2 ^ 16) |||
          char_to_hex d3 * 2 ^ 12 =
        (c0 - 64) * 2 ^ 26 + (c1 - 64) * 2 ^ 21 + (c2 - 64) * 2 ^ 16 +
          char_to_hex d3 * 2 ^ 12 :=
      or_eq_add_of_dvd 16
        ⟨(c0 - 64) * 2 ^ 10 + (c1 - 64) * 2 ^ 5 + (c2 - 64), by ring⟩ (by omega)
    have e4 : ((c0 - 64) * 2 ^ 26 + (c1 - 64) * 2 ^ 21 + (c2 - 64) * 2 ^ 16 +
          char_to_hex d3 * 2 ^ 12) ||| char_to_hex d4 * 2 ^ 8 =
        (c0 - 64) * 2 ^ 26 + (c1 - 64) * 2 ^ 21 + (c2 - 64) * 2 ^ 16 +
          char_to_hex d3 * 2 ^ 12 + char_to_hex d4 * 2 ^ 8 :=
      or_eq_add_of_dvd 12
        ⟨(c0 - 64) * 2 ^ 14 + (c1 - 64) * 2 ^ 9 + (c2 - 64) * 2 ^ 4 +
          char_to_hex d3, by ring⟩ (by omega)
    have e5 : ((c0 - 64) * 2 ^ 26 + (c1 - 64) * 2 ^ 21 + (c2 - 64) * 2 ^ 16 +
          char_to_hex d3 * 2 ^ 12 + char_to_hex d4 * 2 ^ 8) |||
          char_to_hex d5 * 2 ^ 4 =
        (c0 - 64) * 2 ^ 26 + (c1 - 64) * 2 ^ 21 + (c2 - 64) * 2 ^ 16 +
          char_to_hex d3 * 2 ^ 12 + char_to_hex d4 * 2 ^ 8 +
          char_to_hex d5 * 2 ^ 4 :=
      or_eq_add_of_dvd 8
        ⟨(c0 - 64) * 2 ^ 18 + (c1 - 64) * 2 ^ 13 + (c2 - 64) * 2 ^ 8 +
          char_to_hex d3 * 2 ^ 4 + char_to_hex d4, by ring⟩ (by omega)
    have e6 : ((c0 - 64) * 2 ^ 26 + (c1 - 64) * 2 ^ 21 + (c2 - 64) * 2 ^ 16 +
          char_to_hex d3 * 2 ^ 12 + char_to_hex d4 * 2 ^ 8 +
          char_to_hex d5 * 2 ^ 4) ||| char_to_hex d6 =
        (c0 - 64) * 2 ^ 26 + (c1 - 64) * 2 ^ 21 + (c2 - 64) * 2 ^ 16 +
          char_to_hex d3 * 2 ^ 12 + char_to_hex d4 * 2 ^ 8 +
          char_to_hex d5 * 2 ^ 4 + char_to_hex d6 :=
      or_eq_add_of_dvd 4
        ⟨(c0 - 64) * 2 ^ 22 + (c1 - 64) * 2 ^ 17 + (c2 - 64) * 2 ^ 12 +
          char_to_hex d3 * 2 ^ 8 + char_to_hex d4 * 2 ^ 4 +
          char_to_hex d5, by ring⟩ (by omega)
    rw [e1, e2, e3, e4, e5, e6]
    have hS : (c0 - 64) * 2 ^ 26 + (c1 - 64) * 2 ^ 21 + (c2 - 64) * 2 ^ 16 +
        char_to_hex d3 * 2 ^ 12 + char_to_hex d4 * 2 ^ 8 +
        char_to_hex d5 * 2 ^ 4 + char_to_hex d6 < 4294967296 := by
      omega
    have hin : ((c0 - 64) * 2 ^ 26 + (c1 - 64) * 2 ^ 21 + (c2 - 64) * 2 ^ 16 +
        char_to_hex d3 * 2 ^ 12 + char_to_hex d4 * 2 ^ 8 +
        char_to_hex d5 * 2 ^ 4 + char_to_hex d6) &&& 4294967295 =
        (c0 - 64) * 2 ^ 26 + (c1 - 64) * 2 ^ 21 + (c2 - 64) * 2 ^ 16 +
        char_to_hex d3 * 2 ^ 12 + char_to_hex d4 * 2 ^ 8 +
        char_to_hex d5 * 2 ^ 4 + char_to_hex d6 := by
      rw [and_mask4294967295]
      exact Nat.mod_eq_of_lt hS
    rw [hin]
    congr 1
    rw [and_mask4294967295]
    exact Nat.mod_eq_of_lt (lt_of_lt_of_le (bswap32_lt _) (by norm_num))
  · intro s hs
    unfold lai_eisaid
    rw [if_pos hs]

/-- Witness for C6: packing the 7-character id "PNP0A03" (codes
80 78 80 48 65 48 51) gives the integer 0x030AD041 = 51040321, and a
length-2 id stays a string. -/
theorem C6_eisaid_packing_witness :
    lai_eisaid [80, 78, 80, 48, 65, 48, 51] = .integer 51040321 ∧
    lai_eisaid [65, 66] = .string [65, 66] := by
  have h := C6_eisaid_packing 80 78 80 48 65 48 51 (by omega) (by omega)
    (by omega) (by decide) (by decide) (by decide) (by decide)
  constructor
  · rw [h.1]
    norm_num [char_to_hex, bswap32]
    decide
  · exact h.2 [65, 66] (by simp)

/- ---------------------------------------------------------------------
   Claim C1 (confirmed)
   --------------------------------------------------------------------- -/

/-- lai_eval_package succeeds and fetches element x whenever get? finds x,
whatever the incoming destination holds. -/
theorem eval_package_of_getElem? {elems : List lai_object} {i : Nat}
    {x d : lai_object} (h : elems[i]? = some x) :
    lai_eval_package (.package elems) i d = (0, x) := by
  obtain ⟨hlt, hget⟩ := List.getElem?_eq_some.mp h
  simp only [lai_eval_package]
  rw [dif_pos hlt]
  simp only [List.get_eq_getElem, hget]

/-- On a _PRT whose entries are all well formed, the scan loop returns
exactly the first entry satisfying the match predicate. -/
theorem scan_eq_find (prt : List lai_object) (slot function pin : Nat)
    (hwf : ∀ v ∈ prt, prtEntryWF v = true) :
    lai_pci_route_scan prt slot function pin =
      prt.find? (prtEntryMatches slot function pin) := by
  induction prt with
  | nil => rfl
  | cons v rest ih =>
    have hv : prtEntryWF v = true := hwf v (List.mem_cons_self v rest)
    have hrest : ∀ u ∈ rest, prtEntryWF u = true :=
      fun u hu => hwf u (List.mem_cons_of_mem v hu)
    have ihr := ih hrest
    cases v
    case uninitialized => simp [prtEntryWF] at hv
    case integer a => simp [prtEntryWF] at hv
    case string s => simp [prtEntryWF] at hv
    case buffer b => simp [prtEntryWF] at hv
    case handle hdl => simp [prtEntryWF] at hv
    case package elems =>
    cases h0 : elems[0]? with
    | none => simp [prtEntryWF, h0] at hv
    | some e0 =>
      cases h1 : elems[1]? with
      | none => simp [prtEntryWF, h0, h1] at hv
      | some e1 =>
        cases e0
        case uninitialized => simp [prtEntryWF, h0, h1] at hv
        case string s => simp [prtEntryWF, h0, h1] at hv
        case buffer b => simp [prtEntryWF, h0, h1] at hv
        case handle hdl => simp [prtEntryWF, h0, h1] at hv
        case package q => simp [prtEntryWF, h0, h1] at hv
        case integer addr =>
        cases e1
        case uninitialized => simp [prtEntryWF, h0, h1] at hv
        case string s => simp [prtEntryWF, h0, h1] at hv
        case buffer b => simp [prtEntryWF, h0, h1] at hv
        case handle hdl => simp [prtEntryWF, h0, h1] at hv
        case package q => simp [prtEntryWF, h0, h1] at hv
        case integer p =>
        clear hv
        simp only [lai_pci_route_scan]
        rw [eval_package_of_getElem? h0, eval_package_of_getElem? h1]
        dsimp only
        cases hmatch : prtEntryMatches slot function pin (.package elems) with
        | true =>
          have hm := hmatch
          simp only [prtEntryMatches, h0, h1, Bool.and_eq_true, beq_iff_eq,
            Bool.or_eq_true] at hm
          obtain ⟨⟨hs, hf⟩, hp⟩ := hm
          rw [if_pos hs, if_pos hf, if_pos hp, List.find?_cons, hmatch]
        | false =>
          rw [List.find?_cons, hmatch]
          by_cases hs : addr >>> 16 = slot
          · rw [if_pos hs]
            by_cases hf : addr &&& 0xFFFF = 0xFFFF ∨ addr &&& 0xFFFF = function
            · rw [if_pos hf]
              by_cases hp : p = pin
              · exfalso
                simp [prtEntryMatches, h0, h1, hs, hp] at hmatch
                tauto
              · rw [if_neg hp]
                exact ihr
            · rw [if_neg hf]
              exact ihr
          · rw [if_neg hs]
            exact ihr

/-- Claim C1: an entry is selected by the _PRT scan if and only if it is a
matching entry (packed-address slot equal to the target, function equal to
the target or the 0xFFFF wildcard, pin equal to the computed pin) that is
preceded only by non-matching entries; the lowest-index matching entry
wins in the ascending scan, whether a wildcard or exact-function entry
comes first. -/
theorem C1_prt_scan_first_match (prt : List lai_object) (slot function pin : Nat)
    (hwf : ∀ v ∈ prt, prtEntryWF v = true) (e : lai_object) :
    lai_pci_route_scan prt slot function pin = some e ↔
      prtEntryMatches slot function pin e = true ∧
        ∃ pre post, prt = pre ++ e :: post ∧
          ∀ u ∈ pre, prtEntryMatches slot function pin u = false := by
  rw [scan_eq_find prt slot function pin hwf, List.find?_eq_some]
  simp only [Bool.not_eq_true']

/-- Witness for C1: a two-entry table for slot 3, pin 1 in which the
wildcard-function entry precedes the exact-function entry; querying
function 2 returns the earlier (wildcard) entry. -/
theorem C1_prt_scan_first_match_witness :
    lai_pci_route_scan
      [.package [.integer 262143, .integer 1, .integer 0, .integer 9],
       .package [.integer 196610, .integer 1, .integer 0, .integer 4]] 3 2 1 =
      some (.package [.integer 262143, .integer 1, .integer 0, .integer 9]) := by
  have hwf : ∀ v ∈ [lai_object.package
        [.integer 262143, .integer 1, .integer 0, .integer 9],
      lai_object.package
        [.integer 196610, .integer 1, .integer 0, .integer 4]],
      prtEntryWF v = true := by
    intro v hv
    simp only [List.mem_cons, List.not_mem_nil, or_false] at hv
    rcases hv with rfl | rfl <;> rfl
  exact (C1_prt_scan_first_match _ 3 2 1 hwf _).mpr
    ⟨rfl, [], [.package [.integer 196610, .integer 1, .integer 0, .integer 4]],
      rfl, by simp⟩

/- ---------------------------------------------------------------------
   Claim C3 (confirmed)
   --------------------------------------------------------------------- -/

theorem shiftRight_xor_high (mask i : Nat) :
    (mask ^^^ (1 <<< i)) >>> (i + 1) = mask >>> (i + 1) := by
  apply Nat.eq_of_testBit_eq
  intro j
  simp only [Nat.testBit_shiftRight, Nat.testBit_xor, Nat.one_shiftLeft,
    Nat.testBit_two_pow_of_ne (by omega : i ≠ i + 1 + j), Bool.xor_false]

theorem testBit_xor_two_pow {mask i j : Nat} (hne : j ≠ i) :
    (mask ^^^ (1 <<< i)).testBit j = mask.testBit j := by
  simp only [Nat.testBit_xor, Nat.one_shiftLeft,
    Nat.testBit_two_pow_of_ne (Ne.symm hne), Bool.xor_false]

theorem testBit_xor_two_pow_self (mask i : Nat) :
    (mask ^^^ (1 <<< i)).testBit i = !mask.testBit i := by
  simp [Nat.testBit_xor, Nat.one_shiftLeft, Nat.testBit_two_pow_self]

theorem filterMap_congr_mem {α β : Type} {f g : α → Option β} :
    ∀ {l : List α}, (∀ a ∈ l, f a = g a) → l.filterMap f = l.filterMap g
  | [], _ => rfl
  | a :: l, h => by
    have ht := filterMap_congr_mem (l := l)
      (fun x hx => h x (List.mem_cons_of_mem a hx))
    rw [List.filterMap_cons, List.filterMap_cons,
      h a (List.mem_cons_self a l), ht]

/-- The emission loop smallIrqBits, started at bit i with all lower mask
bits clear, produces exactly one IRQ entry per set mask bit, with base
equal to the bit index, in ascending index order. -/
theorem smallIrqBits_go (flags : Nat) :
    ∀ (n i mask : Nat), mask >>> i < 2 ^ n →
      (∀ j, j < i → mask.testBit j = false) →
      smallIrqBits flags mask i =
        (List.range' i n).filterMap (fun j =>
          if mask.testBit j then
            some { restype := acpi_restype.irq, base := j, irq_flags := flags }
          else none)
  | 0, i, mask, hlt, hlow => by
    have hm : mask = 0 := by
      apply Nat.eq_of_testBit_eq
      intro j
      rw [Nat.zero_testBit]
      rcases Nat.lt_or_ge j i with hj | hj
      · exact hlow j hj
      · have hz : mask >>> i = 0 := Nat.lt_one_iff.mp (by simpa using hlt)
        have ht : mask.testBit j = (mask >>> i).testBit (j - i) := by
          rw [Nat.testBit_shiftRight]
          congr 1
          omega
        rw [ht, hz, Nat.zero_testBit]
    subst hm
    rw [smallIrqBits]
    simp
  | n + 1, i, mask, hlt, hlow => by
    by_cases h0 : mask = 0
    · subst h0
      rw [smallIrqBits]
      simp [Nat.zero_testBit]
    · have hshr : ¬(mask >>> i = 0) := by
        intro hz
        apply h0
        apply Nat.eq_of_testBit_eq
        intro j
        rw [Nat.zero_testBit]
        rcases Nat.lt_or_ge j i with hj | hj
        · exact hlow j hj
        · have ht : mask.testBit j = (mask >>> i).testBit (j - i) := by
            rw [Nat.testBit_shiftRight]
            congr 1
            omega
          rw [ht, hz, Nat.zero_testBit]
      have hlt2 : mask >>> (i + 1) < 2 ^ n := by
        rw [Nat.shiftRight_succ]
        rw [Nat.pow_succ] at hlt
        omega
      rw [smallIrqBits, if_neg h0, if_neg hshr, List.range'_succ]
      by_cases hbit : mask.testBit i
      · rw [if_pos hbit]
        have hrec := smallIrqBits_go flags n (i + 1) (mask ^^^ (1 <<< i))
          (by rw [shiftRight_xor_high]; exact hlt2)
          (by
            intro j hj
            rcases Nat.lt_or_ge j i with hji | hji
            · rw [testBit_xor_two_pow (by omega)]
              exact hlow j hji
            · have hji2 : j = i := by omega
              subst hji2
              rw [testBit_xor_two_pow_self, hbit]
              rfl)
        rw [hrec]
        have htail : (List.range' (i + 1) n).filterMap (fun j =>
              if (mask ^^^ (1 <<< i)).testBit j then
                some ({ restype := acpi_restype.irq, base := j,
                        irq_flags := flags } : acpi_resource)
              else none) =
            (List.range' (i + 1) n).filterMap (fun j =>
              if mask.testBit j then
                some ({ restype := acpi_restype.irq, base := j,
                        irq_flags := flags } : acpi_resource)
              else none) := by
          apply filterMap_congr_mem
          intro a ha
          obtain ⟨t, htn, hteq⟩ := List.mem_range'.mp ha
          rw [testBit_xor_two_pow (by omega)]
        rw [htail, List.filterMap_cons]
        simp [hbit]
      · have hbitf : mask.testBit i = false := by
          cases h : mask.testBit i
          · rfl
          · exact absurd h hbit
        rw [if_neg hbit]
        have hrec := smallIrqBits_go flags n (i + 1) mask hlt2
          (by
            intro j hj
            rcases Nat.lt_or_ge j i with hji | hji
            · exact hlow j hji
            · have hji2 : j = i := by omega
              subst hji2
              exact hbitf)
        rw [hrec, List.filterMap_cons]
        simp [hbitf]

/-- smallIrqBits on a 16-bit mask from bit 0: one entry per set bit,
ascending. -/
theorem smallIrqBits_eq (flags mask : Nat) (hm : mask < 65536) :
    smallIrqBits flags mask 0 =
      (List.range 16).filterMap (fun j =>
        if mask.testBit j then
          some { restype := acpi_restype.irq, base := j, irq_flags := flags }
        else none) := by
  rw [List.range_eq_range']
  exact smallIrqBits_go flags 16 0 mask
    (by rw [Nat.shiftRight_zero]; norm_num; omega) (by omega)

/-- Claim C3: a small IRQ descriptor (type 0x04) makes lai_read_resource
emit exactly one Interrupt entry per set bit of the 16-bit interrupt mask
(little-endian bytes m0, m1), with base equal to the bit index, in
ascending bit order; the flags are the third payload byte verbatim when
the payload length is at least 3, and the active-high/edge/exclusive
default otherwise. -/
theorem C3_small_irq_descriptor (b0 m0 m1 c : Nat) (rest : List Nat)
    (acc : List acpi_resource) (hty : b0 >>> 3 = 4)
    (hm0 : m0 < 256) (hm1 : m1 < 256) (hc : c < 256) :
    lai_read_resource_loop (b0 :: m0 :: m1 :: c :: rest) acc =
      lai_read_resource_loop ((b0 :: m0 :: m1 :: c :: rest).drop (b0 % 8 + 1))
        (acc ++ (List.range 16).filterMap (fun j =>
          if (m0 + m1 * 256).testBit j then
            some { restype := acpi_restype.irq, base := j,
                   irq_flags := if 3 ≤ b0 % 8 then c else defaultSmallIrqFlags }
          else none)) := by
  have hb : 32 ≤ b0 ∧ b0 < 40 := by
    rw [shr_div] at hty
    norm_num at hty
    omega
  have hb0m : b0 % 256 = b0 := Nat.mod_eq_of_lt (by omega)
  have h80 : b0 &&& 0x80 = 0 := by
    rw [show (0x80 : Nat) = 2 ^ 7 by norm_num, Nat.and_two_pow,
      Nat.testBit_lt_two_pow (by omega : b0 < 2 ^ 7)]
    rfl
  have hmask : (m0 % 256) ||| ((m1 % 256) <<< 8) = m0 + m1 * 256 := by
    rw [Nat.mod_eq_of_lt hm0, Nat.mod_eq_of_lt hm1,
      or_shl_add (show m0 < 2 ^ 8 by omega)]
    norm_num
  simp only [lai_read_resource_loop]
  rw [hb0m, and_mask7, hty]
  rw [if_neg (by omega : ¬(b0 = 0x79)), if_pos h80,
    if_neg (by norm_num : ¬(4 = 0x0F)), if_pos (rfl : (4 : Nat) = 0x04)]
  have g0 : (m0 :: m1 :: c :: rest)[0]? = some m0 := by simp
  have g1 : (m0 :: m1 :: c :: rest)[1]? = some m1 := by simp
  have g2 : (m0 :: m1 :: c :: rest)[2]? = some c := by simp
  rw [g0, g1, g2]
  dsimp only
  rw [hmask]
  by_cases hds : 3 ≤ b0 % 8
  · simp only [if_pos hds]
    rw [Nat.mod_eq_of_lt hc,
      smallIrqBits_eq c (m0 + m1 * 256) (by omega)]
  · simp only [if_neg hds]
    rw [smallIrqBits_eq defaultSmallIrqFlags (m0 + m1 * 256) (by omega)]

/-- Witness for C3: descriptor 0x23 (small IRQ, 3-byte payload) with mask
0x000A (bits 1 and 3) and config byte 0x01 yields exactly the two entries
base 1 and base 3, flags 1, in ascending order, then terminates at the end
tag. -/
theorem C3_small_irq_descriptor_witness :
    lai_read_resource_loop [0x23, 0x0A, 0x00, 0x01, 0x79] [] =
      some [{ restype := acpi_restype.irq, base := 1, irq_flags := 1 },
            { restype := acpi_restype.irq, base := 3, irq_flags := 1 }] := by
  rw [C3_small_irq_descriptor 0x23 0x0A 0x00 0x01 [0x79] [] (by decide)
    (by norm_num) (by norm_num) (by norm_num)]
  norm_num [lai_read_resource_loop]
  decide

/- ---------------------------------------------------------------------
   Claim C9 (confirmed)
   --------------------------------------------------------------------- -/

/-- Whenever the descriptor walk hits an unrecognized type before any end
tag, the parsing loop returns zero entries, whatever has accumulated. -/
theorem loop_bad_discards :
    ∀ (N : Nat) (data : List Nat), data.length ≤ N →
      ∀ (acc : List acpi_resource), resBadBeforeEnd data = some true →
        lai_read_resource_loop data acc = some []
  | 0, data, hlen, acc, hbad => by
    have hd : data = [] := List.length_eq_zero.mp (by omega)
    subst hd
    simp [resBadBeforeEnd] at hbad
  | N + 1, data, hlen, acc, hbad => by
    cases data with
    | nil => simp [resBadBeforeEnd] at hbad
    | cons b rest =>
      have hlen2 : rest.length + 1 ≤ N + 1 := by simpa using hlen
      simp only [resBadBeforeEnd] at hbad
      simp only [lai_read_resource_loop]
      by_cases h79 : b % 256 = 0x79
      · rw [if_pos h79] at hbad
        simp at hbad
      · rw [if_neg h79] at hbad ⊢
        by_cases hsm : b % 256 &&& 0x80 = 0
        · rw [if_pos hsm] at hbad ⊢
          by_cases hend : (b % 256) >>> 3 = 0x0F
          · rw [if_pos hend] at hbad
            simp at hbad
          · rw [if_neg hend] at hbad ⊢
            by_cases hirq : (b % 256) >>> 3 = 0x04
            · rw [if_pos hirq] at hbad ⊢
              cases hr0 : rest[0]? with
              | none =>
                rw [hr0] at hbad
                simp at hbad
              | some m0 =>
                cases hr1 : rest[1]? with
                | none =>
                  rw [hr0, hr1] at hbad
                  simp at hbad
                | some m1 =>
                  rw [hr0, hr1] at hbad
                  dsimp only at hbad ⊢
                  by_cases hds : 3 ≤ b % 256 &&& 7
                  · rw [if_pos hds] at hbad ⊢
                    cases hr2 : rest[2]? with
                    | none =>
                      rw [hr2] at hbad
                      simp at hbad
                    | some cfg =>
                      rw [hr2] at hbad
                      dsimp only at hbad ⊢
                      exact loop_bad_discards N _
                        (by simp only [List.length_drop, List.length_cons]
                            omega) _ hbad
                  · rw [if_neg hds] at hbad ⊢
                    exact loop_bad_discards N _
                      (by simp only [List.length_drop, List.length_cons]
                          omega) _ hbad
            · rw [if_neg hirq] at hbad ⊢
        · rw [if_neg hsm] at hbad ⊢
          cases hr0 : rest[0]? with
          | none =>
            rw [hr0] at hbad
            simp at hbad
          | some s0 =>
            cases hr1 : rest[1]? with
            | none =>
              rw [hr0, hr1] at hbad
              simp at hbad
            | some s1 =>
              rw [hr0, hr1] at hbad
              dsimp only at hbad ⊢
              by_cases h89 : b % 256 = 0x89
              · rw [if_pos h89] at hbad ⊢
                cases hr2 : rest[2]? with
                | none =>
                  rw [hr2] at hbad
                  simp at hbad
                | some cfg =>
                  cases hr4 : rest[4]? with
                  | none =>
                    rw [hr2, hr4] at hbad
                    simp at hbad
                  | some i0 =>
                    cases hr5 : rest[5]? with
                    | none =>
                      rw [hr2, hr4, hr5] at hbad
                      simp at hbad
                    | some i1 =>
                      cases hr6 : rest[6]? with
                      | none =>
                        rw [hr2, hr4, hr5, hr6] at hbad
                        simp at hbad
                      | some i2 =>
                        cases hr7 : rest[7]? with
                        | none =>
                          rw [hr2, hr4, hr5, hr6, hr7] at hbad
                          simp at hbad
                        | some i3 =>
                          rw [hr2, hr4, hr5, hr6, hr7] at hbad
                          dsimp only at hbad ⊢
                          exact loop_bad_discards N _
                            (by simp only [List.length_drop, List.length_cons]
                                omega) _ hbad
              · rw [if_neg h89] at hbad ⊢

/-- Claim C9: a descriptor stream containing, before any end tag, a
descriptor whose type is not small IRQ (0x04), large IRQ (0x89), or small
end tag (0x0F), makes lai_read_resource report zero entries - everything
decoded before the unrecognized descriptor is discarded (the accumulated
entries acc do not survive into the result). -/
theorem C9_bad_descriptor_zero (data : List Nat) (acc : List acpi_resource)
    (hbad : resBadBeforeEnd data = some true) :
    lai_read_resource_loop data acc = some [] ∧
    lai_read_resource_buf data = some [] :=
  ⟨loop_bad_discards data.length data Nat.le.refl acc hbad,
   loop_bad_discards data.length data Nat.le.refl [] hbad⟩

/-- Witness for C9: a valid small-IRQ descriptor followed by an
unrecognized small type-5 descriptor yields zero entries, even with a
nonempty accumulated entry list. -/
theorem and128_of_34 : (34 : Nat) &&& 128 = 0 := by decide

theorem and128_of_40 : (40 : Nat) &&& 128 = 0 := by decide

theorem and7_of_34 : (34 : Nat) &&& 7 = 2 := by decide

theorem shr3_of_34 : (34 : Nat) >>> 3 = 4 := by decide

theorem shr3_of_40 : (40 : Nat) >>> 3 = 5 := by decide

theorem C9_bad_descriptor_zero_witness :
    lai_read_resource_loop [0x22, 0x0A, 0x00, 0x28, 0x79]
      [{ restype := acpi_restype.irq, base := 9, irq_flags := 1 }] = some [] ∧
    lai_read_resource_buf [0x22, 0x0A, 0x00, 0x28, 0x79] = some [] :=
  C9_bad_descriptor_zero _ _
    (by norm_num [resBadBeforeEnd, and128_of_34, and128_of_40, and7_of_34,
      shr3_of_34, shr3_of_40])

/- ---------------------------------------------------------------------
   Claim C2 (confirmed)
   --------------------------------------------------------------------- -/

theorem mask16_lt (m0 m1 : Nat) : (m0 % 256) ||| ((m1 % 256) <<< 8) < 65536 := by
  have h1 : m0 % 256 < 2 ^ 16 := by omega
  have h2 : (m1 % 256) <<< 8 < 2 ^ 16 := by
    rw [Nat.shiftLeft_eq]
    omega
  have h3 := Nat.or_lt_two_pow h1 h2
  omega

/-- Every entry the small-IRQ emission loop produces is an IRQ entry. -/
theorem smallIrqBits_irq (flags m0 m1 : Nat) :
    ∀ r ∈ smallIrqBits flags ((m0 % 256) ||| ((m1 % 256) <<< 8)) 0,
      r.restype = acpi_restype.irq := by
  intro r hr
  rw [smallIrqBits_eq flags _ (mask16_lt m0 m1)] at hr
  simp only [List.mem_filterMap] at hr
  obtain ⟨a, _, hfa⟩ := hr
  split at hfa
  · injection hfa with h
    rw [← h]
  · cases hfa

/-- Every entry lai_read_resource accumulates or returns is an IRQ entry:
the parser recognizes no descriptor kind that would produce anything
else. -/
theorem loop_all_irq :
    ∀ (N : Nat) (data : List Nat), data.length ≤ N →
      ∀ (acc res : List acpi_resource),
        (∀ r ∈ acc, r.restype = acpi_restype.irq) →
        lai_read_resource_loop data acc = some res →
        ∀ r ∈ res, r.restype = acpi_restype.irq
  | 0, data, hlen, acc, res, hacc, hloop => by
    have hd : data = [] := List.length_eq_zero.mp (by omega)
    subst hd
    simp [lai_read_resource_loop] at hloop
  | N + 1, data, hlen, acc, res, hacc, hloop => by
    cases data with
    | nil => simp [lai_read_resource_loop] at hloop
    | cons b rest =>
      have hlen2 : rest.length + 1 ≤ N + 1 := by simpa using hlen
      simp only [lai_read_resource_loop] at hloop
      by_cases h79 : b % 256 = 0x79
      · rw [if_pos h79] at hloop
        injection hloop with h
        rw [← h]
        exact hacc
      · rw [if_neg h79] at hloop
        by_cases hsm : b % 256 &&& 0x80 = 0
        · rw [if_pos hsm] at hloop
          by_cases hend : (b % 256) >>> 3 = 0x0F
          · rw [if_pos hend] at hloop
            injection hloop with h
            rw [← h]
            exact hacc
          · rw [if_neg hend] at hloop
            by_cases hirq : (b % 256) >>> 3 = 0x04
            · rw [if_pos hirq] at hloop
              cases hr0 : rest[0]? with
              | none =>
                rw [hr0] at hloop
                simp at hloop
              | some m0 =>
                cases hr1 : rest[1]? with
                | none =>
                  rw [hr0, hr1] at hloop
                  simp at hloop
                | some m1 =>
                  rw [hr0, hr1] at hloop
                  dsimp only at hloop
                  by_cases hds : 3 ≤ b % 256 &&& 7
                  · rw [if_pos hds] at hloop
                    cases hr2 : rest[2]? with
                    | none =>
                      rw [hr2] at hloop
                      simp at hloop
                    | some cfg =>
                      rw [hr2] at hloop
                      dsimp only at hloop
                      refine loop_all_irq N _
                        (by simp only [List.length_drop, List.length_cons]
                            omega) _ res ?_ hloop
                      intro r hr
                      rcases List.mem_append.mp hr with hl | hl
                      · exact hacc r hl
                      · exact smallIrqBits_irq (cfg % 256) m0 m1 r hl
                  · rw [if_neg hds] at hloop
                    refine loop_all_irq N _
                      (by simp only [List.length_drop, List.length_cons]
                          omega) _ res ?_ hloop
                    intro r hr
                    rcases List.mem_append.mp hr with hl | hl
                    · exact hacc r hl
                    · exact smallIrqBits_irq defaultSmallIrqFlags m0 m1 r hl
            · rw [if_neg hirq] at hloop
              injection hloop with h
              rw [← h]
              intro r hr
              cases hr
        · rw [if_neg hsm] at hloop
          cases hr0 : rest[0]? with
          | none =>
            rw [hr0] at hloop
            simp at hloop
          | some s0 =>
            cases hr1 : rest[1]? with
            | none =>
              rw [hr0, hr1] at hloop
              simp at hloop
            | some s1 =>
              rw [hr0, hr1] at hloop
              dsimp only at hloop
              by_cases h89 : b % 256 = 0x89
              · rw [if_pos h89] at hloop
                cases hr2 : rest[2]? with
                | none =>
                  rw [hr2] at hloop
                  simp at hloop
                | some cfg =>
                  cases hr4 : rest[4]? with
                  | none =>
                    rw [hr2, hr4] at hloop
                    simp at hloop
                  | some i0 =>
                    cases hr5 : rest[5]? with
                    | none =>
                      rw [hr2, hr4, hr5] at hloop
                      simp at hloop
                    | some i1 =>
                      cases hr6 : rest[6]? with
                      | none =>
                        rw [hr2, hr4, hr5, hr6] at hloop
                        simp at hloop
                      | some i2 =>
                        cases hr7 : rest[7]? with
                        | none =>
                          rw [hr2, hr4, hr5, hr6, hr7] at hloop
                          simp at hloop
                        | some i3 =>
                          rw [hr2, hr4, hr5, hr6, hr7] at hloop
                          dsimp only at hloop
                          refine loop_all_irq N _
                            (by simp only [List.length_drop, List.length_cons]
                                omega) _ res ?_ hloop
                          intro r hr
                          rcases List.mem_append.mp hr with hl | hl
                          · exact hacc r hl
                          · simp only [List.mem_singleton] at hl
                            rw [hl]
              · rw [if_neg h89] at hloop
                injection hloop with h
                rw [← h]
                intro r hr
                cases hr

/-- Claim C2: when the matched _PRT entry resolves through an
interrupt-link device (element [2] is a Handle) and the link device's
parsed resource list contains no Interrupt entry, lai_pci_route fails
(return 1); it does not report success while leaving the caller's
destination unwritten.  (Since the parser emits only Interrupt entries,
the no-Interrupt case forces an empty list, which the code rejects via
its res_count check.) -/
theorem C2_link_no_irq_fails (elems : List lai_object) (crs : List Nat)
    (res : List acpi_resource)
    (h2 : lai_eval_package (.package elems) 2 .uninitialized =
      (0, .handle crs))
    (hres : lai_read_resource_buf crs = some res)
    (hno : ∀ r ∈ res, r.restype ≠ acpi_restype.irq) :
    lai_pci_route_resolve (.package elems) = RouteResult.fail := by
  have hall : ∀ r ∈ res, r.restype = acpi_restype.irq :=
    loop_all_irq crs.length crs Nat.le.refl [] res (by intro r hr; cases hr)
      hres
  have hempty : res = [] := by
    cases res with
    | nil => rfl
    | cons r t =>
      exact absurd (hall r (List.mem_cons_self r t))
        (hno r (List.mem_cons_self r t))
  subst hempty
  unfold lai_pci_route_resolve
  rw [h2]
  dsimp only
  rw [hres]
  rfl

/-- Witness for C2: a _PRT entry whose element [2] is a handle to a device
whose _CRS is just an end tag (empty resource list, hence no Interrupt
entry); the route resolution fails. -/
theorem C2_link_no_irq_fails_witness :
    lai_pci_route_resolve (.package [.integer 196608, .integer 0,
      .handle [0x79], .integer 0]) = RouteResult.fail := by
  have hres : lai_read_resource_buf [0x79] = some [] := by
    norm_num [lai_read_resource_buf, lai_read_resource_loop]
  exact C2_link_no_irq_fails [.integer 196608, .integer 0,
      .handle [0x79], .integer 0] [0x79] [] rfl hres (by intro r hr; cases hr)

end LaiCore
